import Mathlib

/-! wpa_ctrlpp: value types, reply parsers and command marshaling.

A shallow embedding of `include/network.h` and `src/network.cpp`.

* A `std::string` is a `List Char`; a `Char` stands for the byte with the same code.
* `uint8_t` is a `Nat` reduced `% 256` where the source narrows, `int` is an `Int` with the
  range check that `std::stoi` performs.
* A C++ exception and an out-of-bounds write are explicit outcomes (`Outcome`).
-/

namespace network

/-! ## Outcomes of fallible code -/

/-- The ways in which the embedded code can fail to return a value: the two exceptions that
the standard library calls in `network.h` throw (`std::stoi`, `std::vector::at`), and the
two places of undefined behaviour, a write through an iterator that is past the end of its
array and `*` applied to an empty `std::optional`. -/
inductive Failure where
  | invalid_argument
  | out_of_range
  | out_of_bounds_write
  | empty_optional_dereference
  deriving DecidableEq, Repr

/-- Result of running a piece of the embedded code. -/
inductive Outcome (α : Type) where
  | ok (value : α)
  | fails (why : Failure)
  deriving DecidableEq, Repr

/-- Sequencing: a failure aborts what follows. -/
def Outcome.bind {α β : Type} : Outcome α → (α → Outcome β) → Outcome β
  | .ok a, f => f a
  | .fails e, _ => .fails e

/-- Whether the code returned a value. -/
def Outcome.returns {α : Type} : Outcome α → Bool
  | .ok _ => true
  | .fails _ => false

/-! ## Standard library text functions used by the source -/

/-- The `isspace` of the C locale: space, `\t`, `\n`, `\v`, `\f`, `\r`. -/
def isspace (c : Char) : Bool :=
  c.toNat = 32 || (9 ≤ c.toNat && c.toNat ≤ 13)

/-- The `isdigit` of the C locale. -/
def isdigit (c : Char) : Bool :=
  48 ≤ c.toNat && c.toNat ≤ 57

/-- Value of a run of decimal digits, most significant first. -/
def digits_value (ds : List Char) : Nat :=
  ds.foldl (fun acc c => 10 * acc + (c.toNat - 48)) 0

/-- Smallest `int`. -/
def INT_MIN : Int := -2147483648

/-- Largest `int`. -/
def INT_MAX : Int := 2147483647

/-- The text after an optional sign, and whether the sign was `-`. -/
def strip_sign : List Char → Bool × List Char
  | '-' :: rest => (true, rest)
  | '+' :: rest => (false, rest)
  | s => (false, s)

/-- `std::stoi(str)` (base 10, no position out-parameter): skips leading white space, takes
an optional sign and the longest run of decimal digits, and ignores whatever follows.
Throws `std::invalid_argument` when there is no digit, `std::out_of_range` when the number
does not fit an `int`. -/
def stoi (str : List Char) : Outcome Int :=
  let signed := strip_sign (str.dropWhile isspace)
  let ds := signed.2.takeWhile isdigit
  if ds.isEmpty then .fails .invalid_argument
  else
    let v : Int := if signed.1 then -(digits_value ds : Int) else (digits_value ds : Int)
    if v < INT_MIN || INT_MAX < v then .fails .out_of_range else .ok v

/-- `std::string(s.c_str())`: the bytes of `s` before its first NUL. -/
def c_str (s : List Char) : List Char :=
  s.takeWhile (fun c => c.toNat != 0)

/-- Loop body of `getlines`: `cur` holds, reversed, the characters extracted so far by the
running `std::getline` call. At the end of the stream a call that extracted nothing sets
failbit, which ends the `while`. -/
def getlines_go (delim : Char) : List Char → List Char → List (List Char)
  | [], cur => if cur.isEmpty then [] else [cur.reverse]
  | c :: cs, cur =>
    if c = delim then cur.reverse :: getlines_go delim cs []
    else getlines_go delim cs (c :: cur)

/-- The strings that `while (std::getline(stream, current, delim))` hands to its body, in
order, for a stream holding `input`. -/
def getlines (delim : Char) (input : List Char) : List (List Char) :=
  getlines_go delim input []

/-- Loop body of `words`: `cur` holds, reversed, the word being extracted. -/
def words_go : List Char → List Char → List (List Char)
  | [], cur => if cur.isEmpty then [] else [cur.reverse]
  | c :: cs, cur =>
    if isspace c then
      (if cur.isEmpty then words_go cs [] else cur.reverse :: words_go cs [])
    else words_go cs (c :: cur)

/-- The strings that `std::copy(std::istream_iterator<std::string>(stream), {}, ...)`
collects: the maximal runs of non-white-space characters of `input`. -/
def words (input : List Char) : List (List Char) :=
  words_go input []

/-- Decimal text of a natural number, as `operator<<` writes an integer. -/
def decimal (n : Nat) : List Char :=
  Nat.toDigits 10 n

/-- `std::ostream::operator<<(int)`: decimal, with a leading `-` for a negative value. -/
def ostream_int (v : Int) : List Char :=
  if v < 0 then '-' :: decimal v.natAbs else decimal v.natAbs

/-- `operator<<(std::ostream&, unsigned char)`: inserts the character itself. `uint8_t` is
`unsigned char`, so this is the overload chosen for an octet. -/
def ostream_uchar (b : Nat) : List Char :=
  [Char.ofNat (b % 256)]

/-! ## Value types -/

/-- `wpa_bssid::BSSID_LEN`. -/
def BSSID_LEN : Nat := 6

/-- `class wpa_bssid`: `m_bssid` is a `std::array<uint8_t, BSSID_LEN>`. -/
structure wpa_bssid where
  m_bssid : List Nat
  deriving DecidableEq, Repr

/-- The invariant of the C++ type: six octets, each in `0..255`. -/
def wpa_bssid.wf (a : wpa_bssid) : Prop :=
  a.m_bssid.length = BSSID_LEN ∧ ∀ b ∈ a.m_bssid, b < 256

instance (a : wpa_bssid) : Decidable a.wf :=
  inferInstanceAs (Decidable (a.m_bssid.length = BSSID_LEN ∧ ∀ b ∈ a.m_bssid, b < 256))

/-- `class wpa_ssid`. -/
structure wpa_ssid where
  m_ssid : List Char
  deriving DecidableEq, Repr

/-- `class wpa_network_id`: `m_id` is an `int32_t`. -/
structure wpa_network_id where
  m_id : Int
  deriving DecidableEq, Repr

/-- The invariant of the C++ type: the value fits 32 signed bits. -/
def wpa_network_id.wf (n : wpa_network_id) : Prop :=
  INT_MIN ≤ n.m_id ∧ n.m_id ≤ INT_MAX

instance (n : wpa_network_id) : Decidable n.wf :=
  inferInstanceAs (Decidable (INT_MIN ≤ n.m_id ∧ n.m_id ≤ INT_MAX))

/-- `class wpa_network`. -/
structure wpa_network where
  m_id : wpa_network_id
  m_ssid : wpa_ssid
  m_bssid : wpa_bssid
  deriving DecidableEq, Repr

/-- The `for` loop of `operator<<(std::ostream&, const wpa_bssid&)`: `":"` and the octet,
for each octet after the first. -/
def ostream_bssid_rest : List Nat → List Char
  | [] => []
  | b :: bs => ':' :: (ostream_uchar b ++ ostream_bssid_rest bs)

/-- `operator<<(std::ostream&, const wpa_bssid&)`. -/
def ostream_bssid (bssid : wpa_bssid) : List Char :=
  match bssid.m_bssid with
  | [] => []
  | b :: bs => ostream_uchar b ++ ostream_bssid_rest bs

/-- `operator<<(std::ostream&, const wpa_ssid&)`. -/
def ostream_ssid (ssid : wpa_ssid) : List Char :=
  ssid.m_ssid

/-- `operator<<(std::ostream&, const wpa_network_id&)`. -/
def ostream_network_id (id : wpa_network_id) : List Char :=
  ostream_int id.m_id

/-! ## Decoders (`construct_from_string`) -/

/-- `construct_from_string<std::string>`: the primary template, `Type(input)`. -/
def construct_from_string_string (input : List Char) : Outcome (List Char) :=
  .ok input

/-- `construct_from_string<wpa_ssid>`: the primary template, `Type(input)`. -/
def construct_from_string_ssid (input : List Char) : Outcome wpa_ssid :=
  .ok ⟨input⟩

/-- `construct_from_string<wpa_network_id>`: `wpa_network_id(std::stoi(input))`. -/
def construct_from_string_network_id (input : List Char) : Outcome wpa_network_id :=
  (stoi input).bind fun v => .ok ⟨v⟩

/-- The `while` loop of `construct_from_string<wpa_bssid>` over the strings that
`std::getline` yields: `*(it++) = std::stoi(current.c_str())`. `results` maps an offset of
the array to the octet stored there and `it` is the offset of the iterator. The right-hand
side is evaluated first, so a token that does not parse throws before anything is written;
the `int` is narrowed to `uint8_t`; a write at offset `BSSID_LEN` or beyond is outside the
array. -/
def bssid_loop : List (List Char) → (Nat → Nat) → Nat → Outcome (Nat → Nat)
  | [], results, _ => .ok results
  | current :: rest, results, it =>
    match stoi (c_str current) with
    | .fails e => .fails e
    | .ok v =>
      if it < BSSID_LEN then
        bssid_loop rest (fun i => if i = it then (v % 256).toNat else results i) (it + 1)
      else .fails .out_of_bounds_write

/-- `construct_from_string<wpa_bssid>`. The array `results` is declared without an
initializer; `uninit i` stands for the indeterminate octet that it holds at offset `i`
before the loop. The returned address is the array as the loop leaves it. -/
def construct_from_string_bssid (uninit : Nat → Nat) (input : List Char) :
    Outcome wpa_bssid :=
  (bssid_loop (getlines ':' input) uninit 0).bind fun results =>
    .ok ⟨(List.range BSSID_LEN).map results⟩

/-- `std::vector<std::string>::at(n)`: throws `std::out_of_range` when `n` is not an index. -/
def vector_at (v : List (List Char)) (n : Nat) : Outcome (List Char) :=
  match v.get? n with
  | some s => .ok s
  | none => .fails .out_of_range

/-- The order in which the three arguments of the `parameters_packed` constructor are
evaluated. C++ leaves it unspecified; the digits are the argument positions, first
evaluated first. -/
inductive EvalOrder where
  | o012 | o021 | o102 | o120 | o201 | o210
  deriving DecidableEq, Repr

/-- First constructor argument: `construct_from_string<wpa_network_id>(p.at(0))`. -/
def packed_id (p : List (List Char)) : Outcome wpa_network_id :=
  (vector_at p 0).bind construct_from_string_network_id

/-- Second constructor argument: `construct_from_string<wpa_ssid>(p.at(1))`. -/
def packed_ssid (p : List (List Char)) : Outcome wpa_ssid :=
  (vector_at p 1).bind construct_from_string_ssid

/-- Third constructor argument: `construct_from_string<wpa_bssid>(p.at(2))`. -/
def packed_bssid (uninit : Nat → Nat) (p : List (List Char)) : Outcome wpa_bssid :=
  (vector_at p 2).bind (construct_from_string_bssid uninit)

/-- The tuple `parameters_packed` built from the fields `p` of one line and handed to
`results.emplace_back`: the three arguments are evaluated in the order `order`, and the
first one that fails decides the failure. -/
def parameters_packed (order : EvalOrder) (uninit : Nat → Nat) (p : List (List Char)) :
    Outcome wpa_network :=
  match order with
  | .o012 => (packed_id p).bind fun i => (packed_ssid p).bind fun s =>
      (packed_bssid uninit p).bind fun b => .ok ⟨i, s, b⟩
  | .o021 => (packed_id p).bind fun i => (packed_bssid uninit p).bind fun b =>
      (packed_ssid p).bind fun s => .ok ⟨i, s, b⟩
  | .o102 => (packed_ssid p).bind fun s => (packed_id p).bind fun i =>
      (packed_bssid uninit p).bind fun b => .ok ⟨i, s, b⟩
  | .o120 => (packed_ssid p).bind fun s => (packed_bssid uninit p).bind fun b =>
      (packed_id p).bind fun i => .ok ⟨i, s, b⟩
  | .o201 => (packed_bssid uninit p).bind fun b => (packed_id p).bind fun i =>
      (packed_ssid p).bind fun s => .ok ⟨i, s, b⟩
  | .o210 => (packed_bssid uninit p).bind fun b => (packed_ssid p).bind fun s =>
      (packed_id p).bind fun i => .ok ⟨i, s, b⟩

/-- The `while (std::getline(networks, current_line))` loop of
`construct_from_string<std::vector<wpa_network>>` over the lines that `std::getline`
yields; `n` counts the lines done, `uninit n` is what the address array of line `n` holds
before it is filled, `results` is the vector built so far. -/
def network_loop (order : EvalOrder) (uninit : Nat → Nat → Nat) :
    List (List Char) → Nat → List wpa_network → Outcome (List wpa_network)
  | [], _, results => .ok results
  | current_line :: rest, n, results =>
    match parameters_packed order (uninit n) (words current_line) with
    | .fails e => .fails e
    | .ok network => network_loop order uninit rest (n + 1) (results ++ [network])

/-- `construct_from_string<std::vector<wpa_network>>`, the parser of a LIST_NETWORKS
reply. -/
def construct_from_string_networks (order : EvalOrder) (uninit : Nat → Nat → Nat)
    (input : List Char) : Outcome (List wpa_network) :=
  network_loop order uninit (getlines '\n' input) 0 []

/-! ## Command catalog -/

/-- `enum struct wpa_commands`. -/
inductive wpa_commands where
  | PING
  | STATUS
  | STATUS_VERBOSE
  | SET
  | LOGON
  | LOGOFF
  | REASSOCIATE
  | RECONNECT
  | PREAUTH
  | ATTACH
  | DETACH
  | RECONFIGURE
  | TERMINATE
  | SET_BSSID
  | LIST_NETWORKS
  | DISCONNECT
  | SCAN
  | SCAN_RESULTS
  | SELECT_NETWORK
  | ENABLE_NETWORK
  | DISABLE_NETWORK
  | ADD_NETWORK
  | REMOVE_NETWORK
  | SET_NETWORK
  | GET_NETWORK
  | SAVE_CONFIG
  deriving DecidableEq, Repr

/-- The types that occur in an `Argument_Tuple`. -/
inductive ArgumentType where
  | wpa_bssid
  | wpa_network_id
  | string
  deriving DecidableEq, Repr

/-- The types that occur as a `Return_Type`. -/
inductive ReturnType where
  | void
  | string
  | networks
  | wpa_network_id
  deriving DecidableEq, Repr

/-- `wpa_command_types<Command>::Argument_Tuple`, the element types in order. -/
def Argument_Tuple : wpa_commands → List ArgumentType
  | .PREAUTH => [.wpa_bssid]
  | .SET_BSSID => [.wpa_network_id, .wpa_bssid]
  | .SELECT_NETWORK => [.wpa_network_id]
  | .ENABLE_NETWORK => [.wpa_network_id]
  | .DISABLE_NETWORK => [.wpa_network_id]
  | .REMOVE_NETWORK => [.wpa_network_id]
  | .SET_NETWORK => [.wpa_network_id, .string, .string]
  | .GET_NETWORK => [.wpa_network_id, .string]
  | _ => []

/-- `wpa_command_types<Command>::Return_Type`. -/
def Return_Type : wpa_commands → ReturnType
  | .STATUS => .string
  | .STATUS_VERBOSE => .string
  | .LIST_NETWORKS => .networks
  | .ADD_NETWORK => .wpa_network_id
  | _ => .void

/-- An element of an argument tuple. -/
inductive Argument where
  | bssid (value : wpa_bssid)
  | network_id (value : wpa_network_id)
  | string (value : List Char)
  deriving DecidableEq, Repr

/-- The C++ type of an argument. -/
def Argument.type : Argument → ArgumentType
  | .bssid _ => .wpa_bssid
  | .network_id _ => .wpa_network_id
  | .string _ => .string

/-- The arguments have the types of `Argument_Tuple`, which is what the C++ type checker
requires of a call of `build_command<Command>`. -/
def well_typed (Command : wpa_commands) (arguments : List Argument) : Prop :=
  arguments.map Argument.type = Argument_Tuple Command

/-- The arguments satisfy the invariants of their C++ types. -/
def Argument.wf : Argument → Prop
  | .bssid a => a.wf
  | .network_id n => n.wf
  | .string _ => True

/-- `command << std::get<Index>(arguments)`: the `operator<<` of the element's type. -/
def ostream_argument : Argument → List Char
  | .bssid a => ostream_bssid a
  | .network_id n => ostream_network_id n
  | .string s => s

/-- `wpa_command::command_to_string`, the entries of the `std::map`. -/
def command_to_string : List (wpa_commands × List Char) :=
  [
    (.PING, "PING".toList),
    (.STATUS, "STATUS".toList),
    (.STATUS_VERBOSE, "STATUS-VERBOSE".toList),
    (.SET, "SET".toList),
    (.LOGON, "LOGON".toList),
    (.LOGOFF, "LOGOFF".toList),
    (.REASSOCIATE, "REASSOCIATE".toList),
    (.RECONNECT, "RECONNECT".toList),
    (.PREAUTH, "PREAUTH".toList),
    (.ATTACH, "ATTACH".toList),
    (.DETACH, "DETACH".toList),
    (.RECONFIGURE, "RECONFIGURE".toList),
    (.TERMINATE, "TERMINATE".toList),
    (.SET_BSSID, "SET_BSSID".toList),
    (.LIST_NETWORKS, "LIST_NETWORKS".toList),
    (.DISCONNECT, "DISCONNECT".toList),
    (.SCAN, "SCAN".toList),
    (.SCAN_RESULTS, "SCAN_RESULTS".toList),
    (.SELECT_NETWORK, "SELECT_NETWORK".toList),
    (.ENABLE_NETWORK, "ENABLE_NETWORK".toList),
    (.DISABLE_NETWORK, "DISABLE_NETWORK".toList),
    (.ADD_NETWORK, "ADD_NETWORK".toList),
    (.REMOVE_NETWORK, "REMOVE_NETWORK".toList),
    (.SET_NETWORK, "SET_NETWORK".toList),
    (.GET_NETWORK, "GET_NETWORK".toList),
    (.SAVE_CONFIG, "SAVE_CONFIG".toList)]

/-- `command_to_string.find(Command)`: the mapped string, or none for `cend()`. -/
def command_to_string_find (Command : wpa_commands) : Option (List Char) :=
  command_to_string.lookup Command

/-- `wpa_command::append_arguments<Index>(command, arguments)`: `arguments` are the tuple
elements from position `Index` on and `command` is what the stream holds; each
instantiation writes `" "` and the element, then instantiates `Index + 1`, until `Index`
is the tuple size. Returns what the stream holds afterwards. -/
def append_arguments : List Argument → List Char → List Char
  | [], command => command
  | argument :: rest, command =>
    append_arguments rest (command ++ (' ' :: ostream_argument argument))

/-- `wpa_command::build_command<Command>(args...)`. -/
def build_command (Command : wpa_commands) (arguments : List Argument) :
    Option (List Char) :=
  match command_to_string_find Command with
  | none => none
  | some keyword => some (append_arguments arguments keyword)

/-! ## Command executor -/

/-- `wpa_manager::MAX_ANSWER_LENGTH`. -/
def MAX_ANSWER_LENGTH : Nat := 2048

/-- What one call of `wpa_ctrl_request` leaves behind: its return code, the contents of the
buffer `result` and the value of `message_length`. -/
structure Reply where
  ret : Int
  result : List Char
  message_length : Nat
  deriving DecidableEq, Repr

/-- The transport `wpa_ctrl_request` (declared in `wpa_ctrl.h`, outside the repository),
as a function of the request text and of the reply size it is offered. -/
abbrev Transport := List Char → Nat → Reply

/-- A value of one of the return types. -/
inductive Value where
  | void
  | string (value : List Char)
  | networks (value : List wpa_network)
  | network_id (value : wpa_network_id)
  deriving DecidableEq, Repr

/-- `construct_from_string<return_type>(text)` under `if constexpr (!is_same_v<return_type,
void>)`; for `void` nothing is decoded. -/
def decode_reply (order : EvalOrder) (uninit : Nat → Nat → Nat) :
    ReturnType → List Char → Outcome Value
  | .void, _ => .ok .void
  | .string, text => (construct_from_string_string text).bind fun s => .ok (.string s)
  | .networks, text =>
    (construct_from_string_networks order uninit text).bind fun l => .ok (.networks l)
  | .wpa_network_id, text =>
    (construct_from_string_network_id text).bind fun n => .ok (.network_id n)

/-- The connection behind `interface.m_ctrl` as `wpa_ctrl_request` acts on it: from the
state of the connection, the request text and the reply size offered, to the state of the
connection after the call and what the call leaves behind. -/
abbrev Connection (σ : Type) := σ → List Char → Nat → σ × Reply

/-- `wpa_command::execute_command<Command>(interface, args...)` with the connection of
`interface` in state `m_ctrl`: the state of the connection afterwards and what the call
returned. The request is `*build_command<Command>(args...)`, and `wpa_ctrl_request` is
called on it with `message_length = MAX_ANSWER_LENGTH`. The return code `ret` is not looked
at (`(void) ret;`); unless the return type is `void`, `std::string(result,
message_length)` is decoded. -/
def wpa_command.execute_command {σ : Type} (order : EvalOrder) (uninit : Nat → Nat → Nat)
    (wpa_ctrl_request : Connection σ) (m_ctrl : σ) (Command : wpa_commands)
    (arguments : List Argument) : σ × Outcome Value :=
  match build_command Command arguments with
  | none => (m_ctrl, .fails .empty_optional_dereference)
  | some command =>
    let call := wpa_ctrl_request m_ctrl command MAX_ANSWER_LENGTH
    (call.1,
      decode_reply order uninit (Return_Type Command)
        (call.2.result.take call.2.message_length))

/-- A connection that answers as `transport` does and whose state is the record of the
calls made on it: each call appends the request text and the reply size it was handed. -/
def recording (transport : Transport) : Connection (List (List Char × Nat)) :=
  fun record request size => (record ++ [(request, size)], transport request size)

/-- One run of `execute_command`: the requests handed to `wpa_ctrl_request`, each with the
reply size offered, and what the call returned. -/
structure Execution where
  requests : List (List Char × Nat)
  outcome : Outcome Value
  deriving DecidableEq, Repr

/-- One run of `wpa_command::execute_command` on a recording connection on which no call
was made yet: the record of the connection afterwards, and what the call returned. -/
def execute_command (order : EvalOrder) (uninit : Nat → Nat → Nat)
    (wpa_ctrl_request : Transport) (Command : wpa_commands) (arguments : List Argument) :
    Execution :=
  let run :=
    wpa_command.execute_command order uninit (recording wpa_ctrl_request) [] Command arguments
  ⟨run.1, run.2⟩

/-! ## Channel handle -/

/-- `class wpa_interface_path`; a `fs::path` is the text of the path. -/
structure wpa_interface_path where
  m_ctrl_dir : List Char
  m_interface : List Char
  deriving DecidableEq, Repr

/-- `class wpa_interface`. `m_ctrl` is the `std::unique_ptr<wpa_ctrl, ...>`: `none` is the
null pointer, `some c` owns the connection `c`. -/
structure wpa_interface where
  m_interface_path : wpa_interface_path
  m_ctrl : Option Nat
  deriving DecidableEq, Repr

/-- `wpa_interface::operator bool`: `m_ctrl != nullptr`. -/
def wpa_interface.operator_bool (interface : wpa_interface) : Bool :=
  interface.m_ctrl != none

/-- `wpa_interface::wpa_interface(wpa_interface &&device)`: both members are
move-constructed from those of `device`. Returns the new object and `device` afterwards.
The moved-from `unique_ptr` is null; the moved-from path is valid but unspecified, which
`moved_from` stands for. -/
def wpa_interface.move_construct (moved_from : wpa_interface_path) (device : wpa_interface) :
    wpa_interface × wpa_interface :=
  (⟨device.m_interface_path, device.m_ctrl⟩, ⟨moved_from, none⟩)

/-- `wpa_interface::swap(wpa_interface &other)`: `swap(m_interface_path,
other.m_interface_path); swap(m_ctrl, other.m_ctrl);`. Returns `*this` and `other`
afterwards. -/
def wpa_interface.swap (this other : wpa_interface) : wpa_interface × wpa_interface :=
  (⟨other.m_interface_path, other.m_ctrl⟩, ⟨this.m_interface_path, this.m_ctrl⟩)

/-- `wpa_interface::operator=(wpa_interface &&other)`: `swap(other); return *this;`.
Returns `*this` and `other` afterwards. -/
def wpa_interface.move_assign (this other : wpa_interface) : wpa_interface × wpa_interface :=
  this.swap other

/-! ## The tables of the specification -/

/-- The command keyword table of the specification (section 6), row by row as written
there: kind, keyword, argument types in order. The table has no row for SET. -/
def spec_keyword_table : List (wpa_commands × List Char × List ArgumentType) :=
  [
    (.PING, "PING".toList, []),
    (.STATUS, "STATUS".toList, []),
    (.STATUS_VERBOSE, "STATUS-VERBOSE".toList, []),
    (.LOGON, "LOGON".toList, []),
    (.LOGOFF, "LOGOFF".toList, []),
    (.REASSOCIATE, "REASSOCIATE".toList, []),
    (.RECONNECT, "RECONNECT".toList, []),
    (.PREAUTH, "PREAUTH".toList, [.wpa_bssid]),
    (.ATTACH, "ATTACH".toList, []),
    (.DETACH, "DETACH".toList, []),
    (.RECONFIGURE, "RECONFIGURE".toList, []),
    (.TERMINATE, "TERMINATE".toList, []),
    (.SET_BSSID, "SET_BSSID".toList, [.wpa_network_id, .wpa_bssid]),
    (.LIST_NETWORKS, "LIST_NETWORKS".toList, []),
    (.DISCONNECT, "DISCONNECT".toList, []),
    (.SCAN, "SCAN".toList, []),
    (.SCAN_RESULTS, "SCAN_RESULTS".toList, []),
    (.SELECT_NETWORK, "SELECT_NETWORK".toList, [.wpa_network_id]),
    (.ENABLE_NETWORK, "ENABLE_NETWORK".toList, [.wpa_network_id]),
    (.DISABLE_NETWORK, "DISABLE_NETWORK".toList, [.wpa_network_id]),
    (.ADD_NETWORK, "ADD_NETWORK".toList, []),
    (.REMOVE_NETWORK, "REMOVE_NETWORK".toList, [.wpa_network_id]),
    (.SET_NETWORK, "SET_NETWORK".toList, [.wpa_network_id, .string, .string]),
    (.GET_NETWORK, "GET_NETWORK".toList, [.wpa_network_id, .string]),
    (.SAVE_CONFIG, "SAVE_CONFIG".toList, [])]

/-- The result type that the specification gives a kind (sections 4.4 and 6): a string for
STATUS and STATUS_VERBOSE, a sequence of NetworkRecord for LIST_NETWORKS, a
NetworkIdentifier for ADD_NETWORK, void for every other kind. -/
def spec_result_type (kind : wpa_commands) : ReturnType :=
  if kind = .STATUS ∨ kind = .STATUS_VERBOSE then .string
  else if kind = .LIST_NETWORKS then .networks
  else if kind = .ADD_NETWORK then .wpa_network_id
  else .void

/-- The kinds that the specification lists as taking no argument. -/
def spec_zero_argument_kinds : List wpa_commands :=
  [.PING, .STATUS, .STATUS_VERBOSE, .LOGON, .LOGOFF, .REASSOCIATE, .RECONNECT, .ATTACH,
    .DETACH, .RECONFIGURE, .TERMINATE, .LIST_NETWORKS, .DISCONNECT, .SCAN, .SCAN_RESULTS,
    .ADD_NETWORK, .SAVE_CONFIG]

/-! ## Rows that decode -/

/-- The line decodes to the record: it has exactly three fields, the first decodes to the
id of the record, the second is its name verbatim and the third decodes to its address
whatever the address array held before. -/
def row_decodes (line : List Char) (record : wpa_network) : Prop :=
  ∃ id_text address_text : List Char,
    words line = [id_text, record.m_ssid.m_ssid, address_text] ∧
    construct_from_string_network_id id_text = .ok record.m_id ∧
    ∀ uninit : Nat → Nat, construct_from_string_bssid uninit address_text = .ok record.m_bssid

/-! ## Example inputs and checks -/

/-- Whether a one-character token, read as a number, gives another octet than the code
of the character, or does not parse. -/
def raw_octet_misread (b : Nat) : Bool :=
  match stoi (c_str [Char.ofNat b]) with
  | .ok v => (v % 256).toNat != b
  | .fails _ => true

/-- The example reply of the specification. -/
def spec_example_reply : List Char :=
  "0 MyNetwork 00:11:22:33:44:55\n1 Guest 66:77:88:99:aa:bb\n".toList

/-- The example reply with the octets `aa` and `bb` of the second address in decimal. -/
def decimal_example_reply : List Char :=
  "0 MyNetwork 00:11:22:33:44:55\n1 Guest 66:77:88:99:170:187\n".toList

/-- A transport that fails: return code `-1`, the buffer holds `junk` and the length is
left at 4. -/
def failing_transport : Transport :=
  fun _ _ => ⟨-1, "junk".toList, 4⟩

/-! # Theorems -/

/-! ## Station address: encoder and decoder -/

/-- C1 (fails on the code): the encoder writes each octet as one raw character, which the
decimal decoder does not read back. The address `0,17,34,51,68,85` is encoded with a
leading NUL character, on which decoding throws `std::invalid_argument`; the address
`49,50,51,52,53,54` is encoded as `1:2:3:4:5:6` and decodes to the different address
`1,2,3,4,5,6`. Both hold whatever the array held before. -/
theorem bssid_round_trip_broken :
    (∀ uninit : Nat → Nat,
      construct_from_string_bssid uninit (ostream_bssid ⟨[0, 17, 34, 51, 68, 85]⟩)
        = .fails .invalid_argument) ∧
    (∀ uninit : Nat → Nat,
      construct_from_string_bssid uninit (ostream_bssid ⟨[49, 50, 51, 52, 53, 54]⟩)
        = .ok ⟨[1, 2, 3, 4, 5, 6]⟩) :=
  ⟨fun _ => rfl, fun _ => rfl⟩

/-- C2 (fails on the code): the encoder does not write decimal numbers. The octets
`0,17,34,51,68,85` are written as the six characters with these codes (NUL, DC1, `"`, `3`,
`D`, `U`) joined by `:`, not as `0:17:34:51:68:85`, and the PREAUTH request carries them in
that raw form. -/
theorem bssid_encoding_is_raw_characters :
    ostream_bssid ⟨[0, 17, 34, 51, 68, 85]⟩
      = [Char.ofNat 0, ':', Char.ofNat 17, ':', '"', ':', '3', ':', 'D', ':', 'U'] ∧
    ostream_bssid ⟨[0, 17, 34, 51, 68, 85]⟩ ≠ "0:17:34:51:68:85".toList ∧
    build_command .PREAUTH [.bssid ⟨[0, 17, 34, 51, 68, 85]⟩]
      = some ("PREAUTH ".toList
          ++ [Char.ofNat 0, ':', Char.ofNat 17, ':', '"', ':', '3', ':', 'D', ':', 'U']) := by
  decide

/-- C3 (fails on the code): the decoder does not count the tokens. For the three-token
text `11:22:33` it returns an address whose last three octets are whatever the array held
before (`uninit 3`, `uninit 4`, `uninit 5`); for the seven-token text `1:2:3:4:5:6:7` the
seventh octet is written past the end of the array. -/
theorem bssid_decoder_ignores_token_count :
    (getlines ':' "11:22:33".toList).length = 3 ∧
    (∀ uninit : Nat → Nat,
      construct_from_string_bssid uninit "11:22:33".toList
        = .ok ⟨[11, 22, 33, uninit 3, uninit 4, uninit 5]⟩) ∧
    (getlines ':' "1:2:3:4:5:6:7".toList).length = 7 ∧
    (∀ uninit : Nat → Nat,
      construct_from_string_bssid uninit "1:2:3:4:5:6:7".toList
        = .fails .out_of_bounds_write) :=
  ⟨by decide, fun _ => rfl, by decide, fun _ => rfl⟩

/-! ## No address survives the round trip -/

/-- The loop writes only at offsets from `it` on. -/
theorem bssid_loop_keeps_below (tokens : List (List Char)) :
    ∀ (results : Nat → Nat) (it : Nat) (final : Nat → Nat),
      bssid_loop tokens results it = .ok final → ∀ i, i < it → final i = results i := by
  induction tokens with
  | nil =>
    intro results it final h i _
    simp only [bssid_loop, Outcome.ok.injEq] at h
    rw [← h]
  | cons current rest ih =>
    intro results it final h i hi
    unfold bssid_loop at h
    cases hs : stoi (c_str current) with
    | fails e => rw [hs] at h; cases h
    | ok v =>
      rw [hs] at h
      simp only at h
      split at h
      · have := ih _ _ _ h i (by omega)
        rw [this, if_neg (by omega)]
      · cases h

set_option maxRecDepth 100000 in
/-- No octet is read back from its raw character. -/
theorem raw_octet_misread_all : (List.range 256).all raw_octet_misread = true := by
  decide

/-- The first string that `std::getline` yields for a character followed by `:` is that
character, or is empty when the character is itself `:`. -/
theorem getlines_go_head (c : Char) (tail : List Char) :
    ∃ rest, getlines_go ':' (c :: ':' :: tail) [] = [] :: rest ∨
      getlines_go ':' (c :: ':' :: tail) [] = [c] :: rest := by
  by_cases h : c = ':'
  · subst h
    exact ⟨_, Or.inl rfl⟩
  · refine ⟨getlines_go ':' tail [], Or.inr ?_⟩
    rw [getlines_go, if_neg h, getlines_go, if_pos rfl]
    rfl

/-- The first token that the decoding loop gets from the text of an address of at least two
octets is the raw character of the first octet, or is empty. -/
theorem getlines_ostream_bssid_head (b0 b1 : Nat) (bs : List Nat) :
    ∃ rest, getlines ':' (ostream_bssid ⟨b0 :: b1 :: bs⟩) = [] :: rest ∨
      getlines ':' (ostream_bssid ⟨b0 :: b1 :: bs⟩) = [Char.ofNat (b0 % 256)] :: rest :=
  getlines_go_head (Char.ofNat (b0 % 256)) (ostream_uchar b1 ++ ostream_bssid_rest bs)

/-- The round trip holds for no address: for every well-formed address, decoding its text
does not return it. -/
theorem bssid_round_trip_never (a : wpa_bssid) (uninit : Nat → Nat) (h : a.wf) :
    construct_from_string_bssid uninit (ostream_bssid a) ≠ .ok a := by
  obtain ⟨m⟩ := a
  obtain ⟨hlen, hoct⟩ := h
  simp only [BSSID_LEN] at hlen
  match m, hlen with
  | [b0, b1, b2, b3, b4, b5], _ =>
    have hb0 : b0 < 256 := hoct b0 (by simp)
    have hmis : raw_octet_misread b0 = true :=
      List.all_eq_true.mp raw_octet_misread_all b0 (List.mem_range.mpr hb0)
    intro hok
    unfold construct_from_string_bssid at hok
    cases hloop :
        bssid_loop (getlines ':' (ostream_bssid ⟨[b0, b1, b2, b3, b4, b5]⟩)) uninit 0 with
    | fails e => rw [hloop] at hok; cases hok
    | ok final =>
      rw [hloop] at hok
      simp only [Outcome.bind, Outcome.ok.injEq, wpa_bssid.mk.injEq] at hok
      have hfinal : final 0 = b0 := by
        have := congrArg (fun l => l.head?) hok
        simpa [BSSID_LEN, List.range, List.range.loop] using this
      obtain ⟨rest, hg | hg⟩ := getlines_ostream_bssid_head b0 b1 [b2, b3, b4, b5]
      · rw [hg] at hloop
        have : stoi (c_str []) = .fails .invalid_argument := rfl
        simp only [bssid_loop, this] at hloop
        cases hloop
      · rw [hg, Nat.mod_eq_of_lt hb0] at hloop
        unfold bssid_loop at hloop
        unfold raw_octet_misread at hmis
        cases hs : stoi (c_str [Char.ofNat b0]) with
        | fails e => rw [hs] at hloop; cases hloop
        | ok v =>
          rw [hs] at hloop hmis
          simp only [BSSID_LEN, Nat.lt_add_one, Nat.ofNat_pos, if_true] at hloop
          have hkeep := bssid_loop_keeps_below _ _ _ _ hloop 0 (by omega)
          simp only [if_true] at hkeep
          rw [hfinal] at hkeep
          simp only [bne_iff_ne, ne_eq] at hmis
          exact hmis hkeep.symm

/-! ## Network list parser -/

/-- C4 (counterexample): the specification's example does not parse. Under every
evaluation order and whatever the address arrays held, `std::stoi` throws
`std::invalid_argument` on the token `aa` of the second row, so no records are returned. -/
theorem spec_example_reply_throws :
    ¬ ∃ (order : EvalOrder) (uninit : Nat → Nat → Nat) (records : List wpa_network),
      construct_from_string_networks order uninit spec_example_reply = .ok records := by
  rintro ⟨order, uninit, records, h⟩
  have hthrow : construct_from_string_networks order uninit spec_example_reply
      = .fails .invalid_argument := by
    cases order <;> rfl
  rw [hthrow] at h
  cases h

/-- C4 (amended): with the second address written in decimal octets, the example parses
under every evaluation order, whatever the address arrays held, to exactly two records in
input order: id 0 named `MyNetwork`, then id 1 named `Guest`. -/
theorem decimal_example_reply_parses (order : EvalOrder) (uninit : Nat → Nat → Nat) :
    construct_from_string_networks order uninit decimal_example_reply
      = .ok [⟨⟨0⟩, ⟨"MyNetwork".toList⟩, ⟨[0, 11, 22, 33, 44, 55]⟩⟩,
             ⟨⟨1⟩, ⟨"Guest".toList⟩, ⟨[66, 77, 88, 99, 170, 187]⟩⟩] := by
  cases order <;> rfl

/-! ## Command executor -/

/-- What `execute_command` does when `build_command` returns the request `command`: one
call of `wpa_ctrl_request` on the connection, and the decoding of what it left behind. -/
theorem execute_command_run {σ : Type} (order : EvalOrder) (uninit : Nat → Nat → Nat)
    (wpa_ctrl_request : Connection σ) (m_ctrl : σ) (Command : wpa_commands)
    (arguments : List Argument) (command : List Char)
    (h : build_command Command arguments = some command) :
    wpa_command.execute_command order uninit wpa_ctrl_request m_ctrl Command arguments
      = ((wpa_ctrl_request m_ctrl command MAX_ANSWER_LENGTH).1,
          decode_reply order uninit (Return_Type Command)
            ((wpa_ctrl_request m_ctrl command MAX_ANSWER_LENGTH).2.result.take
              (wpa_ctrl_request m_ctrl command MAX_ANSWER_LENGTH).2.message_length)) := by
  simp only [wpa_command.execute_command, h]

/-- The run on a recording connection when `build_command` returns `command`: the record
holds that one request, and the reply of the transport is decoded. -/
theorem execute_command_recorded (order : EvalOrder) (uninit : Nat → Nat → Nat)
    (transport : Transport) (Command : wpa_commands) (arguments : List Argument)
    (command : List Char) (h : build_command Command arguments = some command) :
    execute_command order uninit transport Command arguments
      = ⟨[(command, MAX_ANSWER_LENGTH)],
          decode_reply order uninit (Return_Type Command)
            ((transport command MAX_ANSWER_LENGTH).result.take
              (transport command MAX_ANSWER_LENGTH).message_length)⟩ := by
  simp only [execute_command, execute_command_run _ _ _ _ _ _ command h, recording,
    List.nil_append]

/-- C6 (fails on the code): the return code of the transport is ignored. With a transport
that reports failure, STATUS returns the buffer contents as its result, ADD_NETWORK tries
to decode them, and a void command returns normally; and in general the outcome of
`execute_command` does not depend on the return code. -/
theorem execute_command_ignores_transport_failure :
    (failing_transport [] MAX_ANSWER_LENGTH).ret ≠ 0 ∧
    (execute_command .o012 (fun _ _ => 0) failing_transport .STATUS []).outcome
      = .ok (.string "junk".toList) ∧
    (execute_command .o012 (fun _ _ => 0) failing_transport .ADD_NETWORK []).outcome
      = .fails .invalid_argument ∧
    (execute_command .o012 (fun _ _ => 0) failing_transport .PING []).outcome
      = .ok .void ∧
    (∀ (order : EvalOrder) (uninit : Nat → Nat → Nat) (transport : Transport) (code : Int)
        (Command : wpa_commands) (arguments : List Argument),
      execute_command order uninit (fun c n => { transport c n with ret := code })
          Command arguments
        = execute_command order uninit transport Command arguments) := by
  refine ⟨by decide, by decide, by decide, by decide, ?_⟩
  intro order uninit transport code Command arguments
  cases hbuild : build_command Command arguments with
  | none => simp only [execute_command, wpa_command.execute_command, hbuild]
  | some command =>
    rw [execute_command_recorded _ _ _ _ _ command hbuild,
      execute_command_recorded _ _ _ _ _ command hbuild]

/-! ## Rows of the network list -/

/-- Indexing past the end of the fields throws. -/
theorem vector_at_beyond (p : List (List Char)) (n : Nat) (h : p.length ≤ n) :
    vector_at p n = .fails .out_of_range := by
  unfold vector_at
  rw [List.get?_eq_none.mpr h]

/-- A row with fewer than three fields yields no record, in any evaluation order. -/
theorem parameters_packed_short (order : EvalOrder) (uninit : Nat → Nat)
    (p : List (List Char)) (h : p.length < 3) :
    (parameters_packed order uninit p).returns = false := by
  have hb : packed_bssid uninit p = .fails .out_of_range := by
    unfold packed_bssid
    rw [vector_at_beyond p 2 (by omega)]
    rfl
  cases order <;> simp only [parameters_packed, hb] <;>
    cases packed_id p <;> cases packed_ssid p <;> rfl

/-- Once a line has too few fields the loop returns nothing, whatever came before. -/
theorem network_loop_short_line (order : EvalOrder) (uninit : Nat → Nat → Nat) :
    ∀ (lines : List (List Char)) (n : Nat) (results : List wpa_network),
      (∃ line ∈ lines, (words line).length < 3) →
      (network_loop order uninit lines n results).returns = false := by
  intro lines
  induction lines with
  | nil => intro n results h; simp at h
  | cons line rest ih =>
    intro n results h
    unfold network_loop
    cases hp : parameters_packed order (uninit n) (words line) with
    | fails e => rfl
    | ok network =>
      simp only
      apply ih
      rcases h with ⟨l, hl, hlen⟩
      rcases List.mem_cons.mp hl with rfl | hmem
      · have := parameters_packed_short order (uninit n) (words l) hlen
        rw [hp] at this
        cases this
      · exact ⟨l, hmem, hlen⟩

/-- C5 (counterexample): a row with a fourth field after the address is accepted. The text
is one non-empty line of four fields, and under every evaluation order it parses to one
record. -/
theorem extra_field_row_accepted :
    getlines '\n' "0 a 1:2:3:4:5:6 extra".toList = ["0 a 1:2:3:4:5:6 extra".toList] ∧
    (words "0 a 1:2:3:4:5:6 extra".toList).length = 4 ∧
    ∀ (order : EvalOrder) (uninit : Nat → Nat → Nat),
      construct_from_string_networks order uninit "0 a 1:2:3:4:5:6 extra".toList
        = .ok [⟨⟨0⟩, ⟨"a".toList⟩, ⟨[1, 2, 3, 4, 5, 6]⟩⟩] := by
  refine ⟨by decide, by decide, ?_⟩
  intro order uninit
  cases order <;> rfl

/-- C5 (amended): a text with a line of fewer than three fields yields no records, in any
evaluation order; and fields after the third do not matter, the record of a row being that
of its first three fields. -/
theorem short_row_rejected_extra_fields_ignored :
    (∀ (order : EvalOrder) (uninit : Nat → Nat → Nat) (input : List Char),
      (∃ line ∈ getlines '\n' input, (words line).length < 3) →
      (construct_from_string_networks order uninit input).returns = false) ∧
    (∀ (order : EvalOrder) (uninit : Nat → Nat) (id name address : List Char)
        (extra : List (List Char)),
      parameters_packed order uninit (id :: name :: address :: extra)
        = parameters_packed order uninit [id, name, address]) := by
  constructor
  · intro order uninit input h
    exact network_loop_short_line order uninit _ 0 [] h
  · intro order uninit id name address extra
    cases order <;> rfl

/-- Witness of C5 (amended): the second line of `0 a 1:2:3:4:5:6` / `1 b` has two
fields. -/
theorem short_row_rejected_extra_fields_ignored_witness :
    (∃ line ∈ getlines '\n' "0 a 1:2:3:4:5:6\n1 b\n".toList, (words line).length < 3) ∧
    (construct_from_string_networks .o210 (fun _ _ => 0)
      "0 a 1:2:3:4:5:6\n1 b\n".toList).returns = false :=
  ⟨⟨"1 b".toList, by decide, by decide⟩,
    short_row_rejected_extra_fields_ignored.1 .o210 (fun _ _ => 0) _
      ⟨"1 b".toList, by decide, by decide⟩⟩

/-! ## Request serialization -/

/-- What `append_arguments` leaves in the stream: what was there, then a space and the
text of each argument in turn. -/
theorem append_arguments_eq (arguments : List Argument) :
    ∀ command : List Char,
      append_arguments arguments command
        = command ++ (arguments.map fun a => ' ' :: ostream_argument a).flatten := by
  induction arguments with
  | nil => intro command; simp [append_arguments]
  | cons a rest ih =>
    intro command
    simp [append_arguments, ih]

/-- Every command has an entry in `command_to_string`, which `find` returns. -/
theorem command_to_string_find_some (Command : wpa_commands) :
    ∃ keyword, command_to_string_find Command = some keyword ∧
      (Command, keyword) ∈ command_to_string := by
  cases Command <;> exact ⟨_, rfl, by decide⟩

/-- C7: for every command and arguments `build_command` returns a request, which is the
command's keyword of `command_to_string` followed, for each argument in tuple order, by one
space and the text encoding of the argument, and nothing else. The encoding is spelled out
per type: a string is written as it is, an identifier as the decimal text of its `int`, an
address as `operator<<` writes it. For SET_BSSID that is the keyword, a space, the id, a
space, the address; SET_NETWORK, GET_NETWORK, PREAUTH and the commands on one identifier
likewise; and four requests are evaluated to their literal text. -/
theorem build_command_format :
    (∀ (Command : wpa_commands) (arguments : List Argument),
      ∃ keyword, (Command, keyword) ∈ command_to_string ∧
        build_command Command arguments
          = some (keyword ++ (arguments.map fun a => ' ' ::
              (match a with
                | .string value => value
                | .network_id id => ostream_int id.m_id
                | .bssid addr => ostream_bssid addr)).flatten)) ∧
    (∀ (id : wpa_network_id) (addr : wpa_bssid),
      build_command .SET_BSSID [.network_id id, .bssid addr]
        = some ("SET_BSSID ".toList ++ ostream_network_id id ++ ' ' :: ostream_bssid addr)) ∧
    (∀ (id : wpa_network_id) (key value : List Char),
      build_command .SET_NETWORK [.network_id id, .string key, .string value]
        = some ("SET_NETWORK ".toList ++ ostream_int id.m_id ++ ' ' :: key ++ ' ' :: value)) ∧
    (∀ (id : wpa_network_id) (key : List Char),
      build_command .GET_NETWORK [.network_id id, .string key]
        = some ("GET_NETWORK ".toList ++ ostream_int id.m_id ++ ' ' :: key)) ∧
    (∀ addr : wpa_bssid,
      build_command .PREAUTH [.bssid addr] = some ("PREAUTH ".toList ++ ostream_bssid addr)) ∧
    (∀ id : wpa_network_id,
      build_command .SELECT_NETWORK [.network_id id]
        = some ("SELECT_NETWORK ".toList ++ ostream_int id.m_id) ∧
      build_command .ENABLE_NETWORK [.network_id id]
        = some ("ENABLE_NETWORK ".toList ++ ostream_int id.m_id) ∧
      build_command .DISABLE_NETWORK [.network_id id]
        = some ("DISABLE_NETWORK ".toList ++ ostream_int id.m_id) ∧
      build_command .REMOVE_NETWORK [.network_id id]
        = some ("REMOVE_NETWORK ".toList ++ ostream_int id.m_id)) ∧
    build_command .SET_NETWORK [.network_id ⟨0⟩, .string "ssid".toList, .string "x y".toList]
      = some "SET_NETWORK 0 ssid x y".toList ∧
    build_command .GET_NETWORK [.network_id ⟨17⟩, .string "psk".toList]
      = some "GET_NETWORK 17 psk".toList ∧
    build_command .SELECT_NETWORK [.network_id ⟨-3⟩] = some "SELECT_NETWORK -3".toList ∧
    build_command .SET_BSSID [.network_id ⟨12⟩, .bssid ⟨[49, 50, 51, 52, 53, 54]⟩]
      = some "SET_BSSID 12 1:2:3:4:5:6".toList := by
  have hrequest : ∀ (Command : wpa_commands) (keyword : List Char)
      (arguments : List Argument), command_to_string_find Command = some keyword →
      build_command Command arguments
        = some (keyword ++ (arguments.map fun a => ' ' :: ostream_argument a).flatten) := by
    intro Command keyword arguments hfind
    simp only [build_command, hfind, append_arguments_eq]
  refine ⟨?_, ?_, ?_, ?_, ?_, ?_, by decide, by decide, by decide, by decide⟩
  · intro Command arguments
    obtain ⟨keyword, hfind, hmem⟩ := command_to_string_find_some Command
    refine ⟨keyword, hmem, ?_⟩
    rw [hrequest Command keyword arguments hfind]
    have hsame : (fun a : Argument => ' ' :: ostream_argument a)
        = (fun a : Argument => ' ' ::
            (match a with
              | .string value => value
              | .network_id id => ostream_int id.m_id
              | .bssid addr => ostream_bssid addr)) := by
      funext a
      cases a <;> rfl
    rw [hsame]
  · intro id addr
    rw [hrequest .SET_BSSID "SET_BSSID".toList _ rfl]
    simp [ostream_argument]
  · intro id key value
    rw [hrequest .SET_NETWORK "SET_NETWORK".toList _ rfl]
    simp [ostream_argument, ostream_network_id]
  · intro id key
    rw [hrequest .GET_NETWORK "GET_NETWORK".toList _ rfl]
    simp [ostream_argument, ostream_network_id]
  · intro addr
    rw [hrequest .PREAUTH "PREAUTH".toList _ rfl]
    simp [ostream_argument]
  · intro id
    refine ⟨?_, ?_, ?_, ?_⟩
    · rw [hrequest .SELECT_NETWORK "SELECT_NETWORK".toList _ rfl]
      simp [ostream_argument, ostream_network_id]
    · rw [hrequest .ENABLE_NETWORK "ENABLE_NETWORK".toList _ rfl]
      simp [ostream_argument, ostream_network_id]
    · rw [hrequest .DISABLE_NETWORK "DISABLE_NETWORK".toList _ rfl]
      simp [ostream_argument, ostream_network_id]
    · rw [hrequest .REMOVE_NETWORK "REMOVE_NETWORK".toList _ rfl]
      simp [ostream_argument, ostream_network_id]

/-! ## Decimal text and `std::stoi` -/

/-- The character of a digit below ten is a decimal digit with that value. -/
theorem digitChar_isdigit (m : Nat) (h : m < 10) :
    isdigit (Nat.digitChar m) = true ∧ (Nat.digitChar m).toNat - 48 = m := by
  interval_cases m <;> decide

/-- A decimal digit is not white space. -/
theorem isdigit_not_isspace (c : Char) (h : isdigit c = true) : isspace c = false := by
  simp only [isdigit, isspace, Bool.and_eq_true, decide_eq_true_eq, Bool.or_eq_false_iff,
    decide_eq_false_iff_not, Bool.and_eq_false_iff] at *
  omega

/-- A text that starts with a digit carries no sign. -/
theorem strip_sign_digit (c : Char) (s : List Char) (h : isdigit c = true) :
    strip_sign (c :: s) = (false, c :: s) := by
  unfold strip_sign
  split
  · rename_i heq
    injection heq with h1 _
    subst h1
    exact absurd h (by decide)
  · rename_i heq
    injection heq with h1 _
    subst h1
    exact absurd h (by decide)
  · rfl

/-- A single digit character is a non-empty run of decimal digits with the digit as its
value. -/
theorem decimal_run_one (m : Nat) (hm : m < 10) :
    [Nat.digitChar m] ≠ [] ∧ (∀ c ∈ [Nat.digitChar m], isdigit c = true) ∧
      digits_value [Nat.digitChar m] = m := by
  have hd := digitChar_isdigit m hm
  refine ⟨List.cons_ne_nil _ _, ?_, ?_⟩
  · intro c hc
    rw [List.mem_singleton.mp hc]
    exact hd.1
  · simpa [digits_value] using hd.2

/-- Appending a digit to a run multiplies its value by ten and adds the digit. -/
theorem decimal_run_snoc (ds : List Char) (q m : Nat) (hm : m < 10)
    (hds : (∀ c ∈ ds, isdigit c = true) ∧ digits_value ds = q) :
    ds ++ [Nat.digitChar m] ≠ [] ∧ (∀ c ∈ ds ++ [Nat.digitChar m], isdigit c = true) ∧
      digits_value (ds ++ [Nat.digitChar m]) = 10 * q + m := by
  have hd := digitChar_isdigit m hm
  refine ⟨by simp, ?_, ?_⟩
  · intro c hc
    rcases List.mem_append.mp hc with h1 | h1
    · exact hds.1 c h1
    · rw [List.mem_singleton.mp h1]
      exact hd.1
  · simp [digits_value, List.foldl_append] at hds ⊢
    rw [hds.2, hd.2]

/-- What `Nat.toDigitsCore` puts in front of its accumulator, given fuel above `n`, is a
decimal run of value `n`. -/
theorem toDigitsCore_decimal (fuel n : Nat) (acc : List Char) (hfuel : n < fuel) :
    ∃ ds, Nat.toDigitsCore 10 fuel n acc = ds ++ acc ∧
      (ds ≠ [] ∧ (∀ c ∈ ds, isdigit c = true) ∧ digits_value ds = n) := by
  induction fuel generalizing n acc with
  | zero => exact absurd hfuel (Nat.not_lt_zero n)
  | succ k ih =>
    have hm : n % 10 < 10 := Nat.mod_lt n (by decide)
    unfold Nat.toDigitsCore
    by_cases hq : n / 10 = 0
    · have hn : n % 10 = n := by omega
      refine ⟨[Nat.digitChar (n % 10)], by simp [hq], ?_⟩
      have := decimal_run_one (n % 10) hm
      rwa [hn] at this ⊢
    · obtain ⟨front, hfront, hrun⟩ := ih (n / 10) (Nat.digitChar (n % 10) :: acc) (by omega)
      refine ⟨front ++ [Nat.digitChar (n % 10)], by simp [hq, hfront], ?_⟩
      have := decimal_run_snoc front (n / 10) (n % 10) hm ⟨hrun.2.1, hrun.2.2⟩
      have hn : 10 * (n / 10) + n % 10 = n := by omega
      rwa [hn] at this

/-- The decimal text of `n` is a non-empty run of digits of value `n`. -/
theorem decimal_spec (n : Nat) :
    decimal n ≠ [] ∧ (∀ c ∈ decimal n, isdigit c = true) ∧ digits_value (decimal n) = n := by
  obtain ⟨ds, heq, hrun⟩ := toDigitsCore_decimal (n + 1) n [] (Nat.lt_succ_self n)
  have hdec : decimal n = ds := by
    simp [decimal, Nat.toDigits, heq]
  rw [hdec]
  exact hrun

/-- The longest digit prefix of a digit run followed by a text that does not start with a
digit is the run. -/
theorem takeWhile_digits_append (ds rest : List Char) (hd : ∀ c ∈ ds, isdigit c = true)
    (hr : ∀ c ∈ rest.head?, isdigit c = false) :
    (ds ++ rest).takeWhile isdigit = ds := by
  induction ds with
  | nil =>
    cases rest with
    | nil => rfl
    | cons r rs =>
      have := hr r (by simp)
      simp [List.takeWhile, this]
  | cons d ds ih =>
    have h1 := hd d (by simp)
    have h2 := ih (fun c hc => hd c (by simp [hc]))
    simp only [List.cons_append, List.takeWhile_cons, h1, if_true, h2]
/-- `std::stoi` on a digit run, or on `-` and a digit run, followed by something that does
not start with a digit: the run is taken whole and what follows is ignored. -/
theorem stoi_digit_run (ds rest : List Char) (hne : ds ≠ []) (hd : ∀ c ∈ ds, isdigit c = true)
    (hr : ∀ c ∈ rest.head?, isdigit c = false) :
    stoi (ds ++ rest)
      = (if (digits_value ds : Int) < INT_MIN || INT_MAX < (digits_value ds : Int)
          then .fails .out_of_range else .ok (digits_value ds : Int)) ∧
    stoi ('-' :: (ds ++ rest))
      = (if -(digits_value ds : Int) < INT_MIN || INT_MAX < -(digits_value ds : Int)
          then .fails .out_of_range else .ok (-(digits_value ds : Int))) := by
  obtain ⟨c, cs, rfl⟩ := List.exists_cons_of_ne_nil hne
  have hc : isdigit c = true := hd c (by simp)
  have hsp : isspace c = false := isdigit_not_isspace c hc
  have htake := takeWhile_digits_append (c :: cs) rest hd hr
  constructor
  · have hdrop : ((c :: cs) ++ rest).dropWhile isspace = (c :: cs) ++ rest := by
      simp [List.dropWhile, hsp]
    have hsign : strip_sign ((c :: cs) ++ rest) = (false, (c :: cs) ++ rest) :=
      strip_sign_digit c (cs ++ rest) hc
    simp only [stoi, hdrop, hsign, htake]
    simp
  · have hdrop : ('-' :: ((c :: cs) ++ rest)).dropWhile isspace = '-' :: ((c :: cs) ++ rest) := by
      have : isspace '-' = false := by decide
      simp [List.dropWhile, this]
    have hsign : strip_sign ('-' :: ((c :: cs) ++ rest)) = (true, (c :: cs) ++ rest) := rfl
    simp only [stoi, hdrop, hsign, htake]
    simp

/-- Reading back what `operator<<` writes for an `int`, with anything appended that does
not start with a digit. -/
theorem stoi_ostream_int_append (v : Int) (rest : List Char)
    (hv : INT_MIN ≤ v ∧ v ≤ INT_MAX) (hr : ∀ c ∈ rest.head?, isdigit c = false) :
    stoi (ostream_int v ++ rest) = .ok v := by
  obtain ⟨hne, hdig, hval⟩ := decimal_spec v.natAbs
  obtain ⟨hpos, hneg⟩ := stoi_digit_run (decimal v.natAbs) rest hne hdig hr
  rw [hval] at hpos hneg
  unfold INT_MIN INT_MAX at *
  unfold ostream_int
  by_cases h : v < 0
  · rw [if_pos h, List.cons_append, hneg]
    have habs : -(v.natAbs : Int) = v := by omega
    rw [habs]
    have : ¬ (v < -2147483648 ∨ 2147483647 < v) := by omega
    simp [this]
  · rw [if_neg h, hpos]
    have habs : (v.natAbs : Int) = v := by omega
    rw [habs]
    have : ¬ (v < -2147483648 ∨ 2147483647 < v) := by omega
    simp [this]

/-- C8: for every network identifier in the range of `int32_t`, decoding the text that
`operator<<` writes for it returns that identifier. -/
theorem network_id_round_trip (n : wpa_network_id) (h : n.wf) :
    construct_from_string_network_id (ostream_network_id n) = .ok n := by
  have hstoi := stoi_ostream_int_append n.m_id [] h (by simp)
  rw [List.append_nil] at hstoi
  simp only [construct_from_string_network_id, ostream_network_id, hstoi, Outcome.bind]

/-- Witness of C8 at the smallest identifier, `-2147483648`. -/
theorem network_id_round_trip_witness :
    (⟨-2147483648⟩ : wpa_network_id).wf ∧
    construct_from_string_network_id (ostream_network_id ⟨-2147483648⟩)
      = .ok ⟨-2147483648⟩ :=
  ⟨by decide, network_id_round_trip ⟨-2147483648⟩ (by decide)⟩

/-- C11 (counterexample): move assignment does not empty the source when the destination
was open. Assigning the open handle on connection 2 to the open handle on connection 1
leaves the source open, on connection 1. -/
theorem move_assign_leaves_source_open :
    (wpa_interface.move_assign ⟨⟨"/run".toList, "wlan0".toList⟩, some 1⟩
        ⟨⟨"/run".toList, "wlan1".toList⟩, some 2⟩).2.operator_bool = true ∧
    (wpa_interface.move_assign ⟨⟨"/run".toList, "wlan0".toList⟩, some 1⟩
        ⟨⟨"/run".toList, "wlan1".toList⟩, some 2⟩).2
      = ⟨⟨"/run".toList, "wlan0".toList⟩, some 1⟩ := by
  decide

/-- C11 (amended): after the move constructor the new handle holds the connection and path
that the source held and the source is not open; after the move assignment the destination
holds the connection and path that the source held and the source holds what the
destination held before, so the source is open exactly when the destination was. -/
theorem move_transfers_and_assignment_swaps :
    (∀ (moved_from : wpa_interface_path) (device : wpa_interface),
      (wpa_interface.move_construct moved_from device).1 = device ∧
      (wpa_interface.move_construct moved_from device).2.operator_bool = false) ∧
    (∀ (destination source : wpa_interface),
      (destination.move_assign source).1 = source ∧
      (destination.move_assign source).2 = destination ∧
      (destination.move_assign source).2.operator_bool = destination.operator_bool) := by
  constructor
  · intro moved_from device
    exact ⟨rfl, rfl⟩
  · intro destination source
    exact ⟨rfl, rfl, rfl⟩

/-! ## Keyword lookup -/

/-- `std::stoi` fails only by one of its two exceptions. -/
theorem stoi_failure (s : List Char) (e : Failure) (h : stoi s = .fails e) :
    e = .invalid_argument ∨ e = .out_of_range := by
  unfold stoi at h
  simp only at h
  split_ifs at h <;> (injection h with h; subst h; simp)

/-- The address loop never fails for an empty optional. -/
theorem bssid_loop_failure (tokens : List (List Char)) :
    ∀ (results : Nat → Nat) (it : Nat),
      bssid_loop tokens results it ≠ .fails .empty_optional_dereference := by
  induction tokens with
  | nil => intro results it h; cases h
  | cons current rest ih =>
    intro results it h
    unfold bssid_loop at h
    cases hs : stoi (c_str current) with
    | fails e =>
      rw [hs] at h
      injection h with h
      subst h
      rcases stoi_failure _ _ hs with h1 | h1 <;> cases h1
    | ok v =>
      rw [hs] at h
      simp only at h
      split at h
      · exact ih _ _ h
      · cases h

/-- Sequencing two steps that do not fail for an empty optional does not either. -/
theorem bind_failure {α β : Type} (x : Outcome α) (f : α → Outcome β)
    (hx : x ≠ .fails .empty_optional_dereference)
    (hf : ∀ a, f a ≠ .fails .empty_optional_dereference) :
    x.bind f ≠ .fails .empty_optional_dereference := by
  cases x with
  | ok a => exact hf a
  | fails e =>
    intro h
    apply hx
    simpa [Outcome.bind] using h

/-- Indexing the fields never fails for an empty optional. -/
theorem vector_at_failure (p : List (List Char)) (n : Nat) :
    vector_at p n ≠ .fails .empty_optional_dereference := by
  unfold vector_at
  split <;> intro h <;> cases h

/-- Decoding an identifier never fails for an empty optional. -/
theorem construct_from_string_network_id_failure (input : List Char) :
    construct_from_string_network_id input ≠ .fails .empty_optional_dereference := by
  unfold construct_from_string_network_id
  apply bind_failure
  · intro h
    rcases stoi_failure _ _ h with h1 | h1 <;> cases h1
  · intro a h; cases h

/-- Decoding an address never fails for an empty optional. -/
theorem construct_from_string_bssid_failure (uninit : Nat → Nat) (input : List Char) :
    construct_from_string_bssid uninit input ≠ .fails .empty_optional_dereference := by
  unfold construct_from_string_bssid
  apply bind_failure
  · exact bssid_loop_failure _ _ _
  · intro a h; cases h

/-- Building the record of a row never fails for an empty optional. -/
theorem parameters_packed_failure (order : EvalOrder) (uninit : Nat → Nat)
    (p : List (List Char)) :
    parameters_packed order uninit p ≠ .fails .empty_optional_dereference := by
  have hi : packed_id p ≠ .fails .empty_optional_dereference :=
    bind_failure _ _ (vector_at_failure p 0) construct_from_string_network_id_failure
  have hs : packed_ssid p ≠ .fails .empty_optional_dereference :=
    bind_failure _ _ (vector_at_failure p 1) (fun a h => by cases h)
  have hb : packed_bssid uninit p ≠ .fails .empty_optional_dereference :=
    bind_failure _ _ (vector_at_failure p 2) (construct_from_string_bssid_failure uninit)
  cases order <;> simp only [parameters_packed] <;>
    refine bind_failure _ _ (by assumption) (fun _ => ?_) <;>
    refine bind_failure _ _ (by assumption) (fun _ => ?_) <;>
    refine bind_failure _ _ (by assumption) (fun _ h => ?_) <;>
    cases h

/-- The list loop never fails for an empty optional. -/
theorem network_loop_failure (order : EvalOrder) (uninit : Nat → Nat → Nat)
    (lines : List (List Char)) :
    ∀ (n : Nat) (results : List wpa_network),
      network_loop order uninit lines n results ≠ .fails .empty_optional_dereference := by
  induction lines with
  | nil => intro n results h; cases h
  | cons line rest ih =>
    intro n results h
    unfold network_loop at h
    cases hp : parameters_packed order (uninit n) (words line) with
    | fails e =>
      rw [hp] at h
      injection h with h
      subst h
      exact parameters_packed_failure _ _ _ hp
    | ok network =>
      rw [hp] at h
      exact ih _ _ h

/-- Decoding a reply never fails for an empty optional. -/
theorem decode_reply_failure (order : EvalOrder) (uninit : Nat → Nat → Nat)
    (type : ReturnType) (text : List Char) :
    decode_reply order uninit type text ≠ .fails .empty_optional_dereference := by
  cases type <;> simp only [decode_reply]
  · intro h; cases h
  · intro h; cases h
  · refine bind_failure _ _ ?_ (fun _ h => by cases h)
    exact network_loop_failure _ _ _ _ _
  · exact bind_failure _ _ (construct_from_string_network_id_failure text)
      (fun _ h => by cases h)

/-- C13: every one of the 26 commands has an entry in `command_to_string`, so
`build_command` returns a request text for every command and arguments, and
`execute_command` never dereferences an empty optional. -/
theorem keyword_lookup_never_fails :
    (command_to_string.map Prod.fst).length = 26 ∧
    (∀ Command : wpa_commands, (command_to_string_find Command).isSome = true) ∧
    (∀ (Command : wpa_commands) (arguments : List Argument),
      (build_command Command arguments).isSome = true) ∧
    (∀ (order : EvalOrder) (uninit : Nat → Nat → Nat) (transport : Transport)
        (Command : wpa_commands) (arguments : List Argument),
      (execute_command order uninit transport Command arguments).outcome
        ≠ .fails .empty_optional_dereference) := by
  refine ⟨by decide, ?_, ?_, ?_⟩
  · intro Command
    obtain ⟨keyword, hfind, _⟩ := command_to_string_find_some Command
    rw [hfind]; rfl
  · intro Command arguments
    obtain ⟨keyword, hfind, _⟩ := command_to_string_find_some Command
    simp only [build_command, hfind]; rfl
  · intro order uninit transport Command arguments
    obtain ⟨keyword, hfind, _⟩ := command_to_string_find_some Command
    have hbuild : build_command Command arguments
        = some (append_arguments arguments keyword) := by
      simp only [build_command, hfind]
    rw [execute_command_recorded _ _ _ _ _ _ hbuild]
    exact decode_reply_failure _ _ _ _

/-- C17: one call of `execute_command` makes exactly one call of `wpa_ctrl_request`, on
the text that `build_command` returns for the command and arguments and with the reply
size `MAX_ANSWER_LENGTH`, which is 2048. For every connection, the state of the connection
afterwards is its state after that one call, and what is decoded is what that call left
behind; a connection that counts its calls counts one more; a connection that records its
calls records that one request, and nothing else. -/
theorem execute_command_one_request :
    MAX_ANSWER_LENGTH = 2048 ∧
    (∀ (σ : Type) (order : EvalOrder) (uninit : Nat → Nat → Nat)
        (wpa_ctrl_request : Connection σ) (m_ctrl : σ) (Command : wpa_commands)
        (arguments : List Argument),
      ∃ command, build_command Command arguments = some command ∧
        wpa_command.execute_command order uninit wpa_ctrl_request m_ctrl Command arguments
          = ((wpa_ctrl_request m_ctrl command MAX_ANSWER_LENGTH).1,
              decode_reply order uninit (Return_Type Command)
                ((wpa_ctrl_request m_ctrl command MAX_ANSWER_LENGTH).2.result.take
                  (wpa_ctrl_request m_ctrl command MAX_ANSWER_LENGTH).2.message_length))) ∧
    (∀ (order : EvalOrder) (uninit : Nat → Nat → Nat) (transport : Transport) (calls : Nat)
        (Command : wpa_commands) (arguments : List Argument),
      (wpa_command.execute_command order uninit
          (fun (n : Nat) request size => (n + 1, transport request size))
          calls Command arguments).1 = calls + 1) ∧
    (∀ (order : EvalOrder) (uninit : Nat → Nat → Nat) (transport : Transport)
        (record : List (List Char × Nat)) (Command : wpa_commands)
        (arguments : List Argument),
      ∃ command, build_command Command arguments = some command ∧
        (wpa_command.execute_command order uninit (recording transport) record Command
          arguments).1 = record ++ [(command, MAX_ANSWER_LENGTH)]) ∧
    (∀ (order : EvalOrder) (uninit : Nat → Nat → Nat) (transport : Transport)
        (Command : wpa_commands) (arguments : List Argument),
      (execute_command order uninit transport Command arguments).requests.length = 1 ∧
      ∃ command, build_command Command arguments = some command ∧
        (execute_command order uninit transport Command arguments).requests
          = [(command, MAX_ANSWER_LENGTH)]) ∧
    (execute_command .o012 (fun _ _ => 0) failing_transport .SET_NETWORK
        [.network_id ⟨0⟩, .string "ssid".toList, .string "x".toList]).requests
      = [("SET_NETWORK 0 ssid x".toList, 2048)] := by
  have hbuild : ∀ (Command : wpa_commands) (arguments : List Argument),
      ∃ command, build_command Command arguments = some command := by
    intro Command arguments
    obtain ⟨keyword, hfind, _⟩ := command_to_string_find_some Command
    exact ⟨append_arguments arguments keyword, by simp only [build_command, hfind]⟩
  refine ⟨rfl, ?_, ?_, ?_, ?_, by decide⟩
  · intro σ order uninit wpa_ctrl_request m_ctrl Command arguments
    obtain ⟨command, hcommand⟩ := hbuild Command arguments
    exact ⟨command, hcommand, execute_command_run _ _ _ _ _ _ command hcommand⟩
  · intro order uninit transport calls Command arguments
    obtain ⟨command, hcommand⟩ := hbuild Command arguments
    rw [execute_command_run _ _ _ _ _ _ command hcommand]
  · intro order uninit transport record Command arguments
    obtain ⟨command, hcommand⟩ := hbuild Command arguments
    refine ⟨command, hcommand, ?_⟩
    rw [execute_command_run _ _ _ _ _ _ command hcommand]
    rfl
  · intro order uninit transport Command arguments
    obtain ⟨command, hcommand⟩ := hbuild Command arguments
    rw [execute_command_recorded _ _ _ _ _ command hcommand]
    exact ⟨rfl, command, hcommand, rfl⟩

/-! ## The catalog against the tables of the specification -/

/-- C12: for every row of the specification's keyword table without arguments,
`build_command` without arguments returns exactly the keyword of the row, and these rows
are the seventeen kinds that the specification lists. -/
theorem zero_argument_commands_are_the_keyword :
    (∀ row ∈ spec_keyword_table, row.2.2 = [] → build_command row.1 [] = some row.2.1) ∧
    (spec_keyword_table.filter fun row => row.2.2.isEmpty).map (fun row => row.1)
      = spec_zero_argument_kinds ∧
    build_command .STATUS_VERBOSE [] = some "STATUS-VERBOSE".toList := by
  decide

/-- Witness of C12 at the row of STATUS_VERBOSE. -/
theorem zero_argument_commands_are_the_keyword_witness :
    ((wpa_commands.STATUS_VERBOSE, "STATUS-VERBOSE".toList, ([] : List ArgumentType))
        ∈ spec_keyword_table) ∧
    build_command .STATUS_VERBOSE [] = some "STATUS-VERBOSE".toList :=
  ⟨by decide,
    zero_argument_commands_are_the_keyword.1
      (.STATUS_VERBOSE, "STATUS-VERBOSE".toList, []) (by decide) rfl⟩

/-- C18: for every row of the specification's keyword table the argument types of
`wpa_command_types` are those of the row, in order, and for every kind the result type
of `wpa_command_types` is the one that the specification gives. -/
theorem catalog_shapes_equal_spec_table :
    (∀ row ∈ spec_keyword_table, Argument_Tuple row.1 = row.2.2) ∧
    (∀ kind : wpa_commands, Return_Type kind = spec_result_type kind) := by
  constructor
  · decide
  · intro kind
    cases kind <;> rfl

/-- Witness of C18 at the row of SET_NETWORK. -/
theorem catalog_shapes_equal_spec_table_witness :
    ((wpa_commands.SET_NETWORK, "SET_NETWORK".toList,
        [ArgumentType.wpa_network_id, .string, .string]) ∈ spec_keyword_table) ∧
    Argument_Tuple .SET_NETWORK = [.wpa_network_id, .string, .string] :=
  ⟨by decide,
    catalog_shapes_equal_spec_table.1
      (.SET_NETWORK, "SET_NETWORK".toList, [.wpa_network_id, .string, .string]) (by decide)⟩

/-! ## Keywords identify the command -/

/-- No keyword of `command_to_string` contains a space. -/
theorem keyword_no_space (Command : wpa_commands) (keyword : List Char)
    (h : command_to_string_find Command = some keyword) : ∀ c ∈ keyword, c ≠ ' ' := by
  have hall : ∀ entry ∈ command_to_string, ∀ c ∈ entry.2, c ≠ ' ' := by decide
  obtain ⟨k, hfind, hmem⟩ := command_to_string_find_some Command
  rw [hfind] at h
  injection h with h
  subst h
  exact hall _ hmem

/-- The text of a request up to its first space is the keyword. -/
theorem request_first_word (keyword : List Char) (arguments : List Argument)
    (h : ∀ c ∈ keyword, c ≠ ' ') :
    (keyword ++ (arguments.map fun a => ' ' :: ostream_argument a).flatten).takeWhile
        (fun c => c != ' ') = keyword := by
  induction keyword with
  | nil =>
    cases arguments with
    | nil => rfl
    | cons a rest => simp [List.takeWhile]
  | cons k ks ih =>
    have hk : (k != ' ') = true := by simpa using h k (by simp)
    have hks := ih (fun c hc => h c (by simp [hc]))
    simp only [List.cons_append, List.takeWhile_cons, hk, if_true, hks]

/-- C19: two distinct commands have distinct keywords in `command_to_string`, and the
request texts of two distinct commands differ whatever their arguments, the text up to the
first space of a request being the keyword. -/
theorem keywords_identify_command :
    (∀ c1 c2 : wpa_commands, c1 ≠ c2 →
      command_to_string_find c1 ≠ command_to_string_find c2) ∧
    (∀ (c1 c2 : wpa_commands) (a1 a2 : List Argument), c1 ≠ c2 →
      build_command c1 a1 ≠ build_command c2 a2) := by
  have hinj : ∀ c1 c2 : wpa_commands, c1 ≠ c2 →
      command_to_string_find c1 ≠ command_to_string_find c2 := by
    intro c1 c2 hne
    cases c1 <;> cases c2 <;> first
      | exact absurd rfl hne
      | decide
  refine ⟨hinj, ?_⟩
  intro c1 c2 a1 a2 hne hreq
  obtain ⟨k1, hfind1, _⟩ := command_to_string_find_some c1
  obtain ⟨k2, hfind2, _⟩ := command_to_string_find_some c2
  simp only [build_command, hfind1, hfind2, append_arguments_eq, Option.some.injEq] at hreq
  have hword := congrArg (List.takeWhile fun c => c != ' ') hreq
  rw [request_first_word k1 a1 (keyword_no_space c1 k1 hfind1),
    request_first_word k2 a2 (keyword_no_space c2 k2 hfind2)] at hword
  apply hinj c1 c2 hne
  rw [hfind1, hfind2, hword]

/-- Witness of C19: SET and SET_BSSID, although `SET` starts `SET_BSSID`. -/
theorem keywords_identify_command_witness :
    wpa_commands.SET ≠ wpa_commands.SET_BSSID ∧
    command_to_string_find .SET ≠ command_to_string_find .SET_BSSID ∧
    build_command .SET []
      ≠ build_command .SET_BSSID [.network_id ⟨0⟩, .bssid ⟨[1, 2, 3, 4, 5, 6]⟩] :=
  ⟨by decide, keywords_identify_command.1 .SET .SET_BSSID (by decide),
    keywords_identify_command.2 .SET .SET_BSSID []
      [.network_id ⟨0⟩, .bssid ⟨[1, 2, 3, 4, 5, 6]⟩] (by decide)⟩

/-! ## STATUS replies -/

/-- C14: when the transport succeeds and delivers the reply `r`, that is it returns 0,
leaves `r` at the start of the buffer and sets the length to that of `r`, which is at
most `MAX_ANSWER_LENGTH`, `execute_command` for STATUS and for STATUS_VERBOSE returns
exactly the string `r`. -/
theorem status_reply_returned_unprocessed (order : EvalOrder) (uninit : Nat → Nat → Nat)
    (transport : Transport) (Command : wpa_commands) (request r : List Char)
    (hkind : Command = .STATUS ∨ Command = .STATUS_VERBOSE)
    (hrequest : build_command Command [] = some request)
    (_hret : (transport request MAX_ANSWER_LENGTH).ret = 0)
    (_hfits : r.length ≤ MAX_ANSWER_LENGTH)
    (hlength : (transport request MAX_ANSWER_LENGTH).message_length = r.length)
    (hbuffer : r <+: (transport request MAX_ANSWER_LENGTH).result) :
    (execute_command order uninit transport Command []).outcome = .ok (.string r) ∧
    ∀ s, (execute_command order uninit transport Command []).outcome = .ok (.string s) →
      s.length = r.length := by
  have htake : (transport request MAX_ANSWER_LENGTH).result.take
      (transport request MAX_ANSWER_LENGTH).message_length = r := by
    rw [hlength]
    exact (List.prefix_iff_eq_take.mp hbuffer).symm
  have hout : (execute_command order uninit transport Command []).outcome
      = .ok (.string r) := by
    rw [execute_command_recorded _ _ _ _ _ request hrequest]
    rcases hkind with rfl | rfl <;>
      simp only [htake, Return_Type, decode_reply, construct_from_string_string,
        Outcome.bind]
  refine ⟨hout, ?_⟩
  intro s hs
  rw [hout] at hs
  injection hs with hs
  injection hs with hs
  rw [hs]

/-- A transport that succeeds with the reply `wpa_state=COMPLETED`, a line feed included,
at the start of a buffer that holds other bytes behind it. -/
theorem status_reply_returned_unprocessed_witness :
    (execute_command .o012 (fun _ _ => 0)
      (fun _ _ => ⟨0, "wpa_state=COMPLETED\nxyz".toList, 20⟩) .STATUS_VERBOSE []).outcome
      = .ok (.string "wpa_state=COMPLETED\n".toList) :=
  (status_reply_returned_unprocessed .o012 (fun _ _ => 0)
    (fun _ _ => ⟨0, "wpa_state=COMPLETED\nxyz".toList, 20⟩) .STATUS_VERBOSE
    "STATUS-VERBOSE".toList "wpa_state=COMPLETED\n".toList (Or.inr rfl) (by decide)
    (by decide) (by decide) (by decide) (by decide)).1

/-! ## Trailing newline -/

/-- The last element of a list with a non-empty tail is that of the tail. -/
theorem getLast?_cons_ne_nil (c : Char) (cs : List Char) (h : cs ≠ []) :
    (c :: cs).getLast? = cs.getLast? := by
  cases cs with
  | nil => exact absurd rfl h
  | cons x xs => simp [List.getLast?]

/-- Appending the delimiter to a stream that does not end with it, and in which the
running `std::getline` call has something to extract, does not change what is read. -/
theorem getlines_go_trailing (d : Char) :
    ∀ t cur : List Char, t.getLast? ≠ some d → (t ≠ [] ∨ cur ≠ []) →
      getlines_go d (t ++ [d]) cur = getlines_go d t cur := by
  intro t
  induction t with
  | nil =>
    intro cur _ hne
    have hcur : cur ≠ [] := by
      rcases hne with h | h
      · exact absurd rfl h
      · exact h
    obtain ⟨c, cs, rfl⟩ := List.exists_cons_of_ne_nil hcur
    simp [getlines_go]
  | cons c cs ih =>
    intro cur hlast _
    simp only [List.cons_append, getlines_go, List.append_eq]
    by_cases hc : c = d
    · subst hc
      have hcs : cs ≠ [] := by
        rintro rfl
        exact hlast rfl
      have hlast' : cs.getLast? ≠ some c := by
        rwa [getLast?_cons_ne_nil _ _ hcs] at hlast
      simp only [if_true]
      rw [ih [] hlast' (Or.inl hcs)]
    · simp only [if_neg hc]
      apply ih
      · by_cases hcs : cs = []
        · subst hcs; simp
        · rwa [getLast?_cons_ne_nil _ _ hcs] at hlast
      · exact Or.inr (List.cons_ne_nil _ _)

/-- C20: the empty text parses to the empty sequence, and a non-empty text that does not
end in a line feed parses as the same text with one line feed appended. -/
theorem trailing_newline_insensitive :
    (∀ (order : EvalOrder) (uninit : Nat → Nat → Nat),
      construct_from_string_networks order uninit [] = .ok []) ∧
    (∀ (order : EvalOrder) (uninit : Nat → Nat → Nat) (t : List Char),
      t ≠ [] → t.getLast? ≠ some '\n' →
      construct_from_string_networks order uninit (t ++ ['\n'])
        = construct_from_string_networks order uninit t) := by
  constructor
  · intro order uninit
    rfl
  · intro order uninit t hne hlast
    simp only [construct_from_string_networks, getlines]
    rw [getlines_go_trailing '\n' t [] hlast (Or.inl hne)]

/-- Witness of C20: `0 a 1:2:3:4:5:6` with and without the final line feed. -/
theorem trailing_newline_insensitive_witness :
    "0 a 1:2:3:4:5:6".toList ≠ [] ∧ "0 a 1:2:3:4:5:6".toList.getLast? ≠ some '\n' ∧
    construct_from_string_networks .o012 (fun _ _ => 0) ("0 a 1:2:3:4:5:6".toList ++ ['\n'])
      = construct_from_string_networks .o012 (fun _ _ => 0) "0 a 1:2:3:4:5:6".toList :=
  ⟨by decide, by decide,
    trailing_newline_insensitive.2 .o012 (fun _ _ => 0) "0 a 1:2:3:4:5:6".toList
      (by decide) (by decide)⟩

/-! ## Decimal addresses -/

/-- A decimal digit is neither `:` nor NUL. -/
theorem isdigit_plain (c : Char) (h : isdigit c = true) : c ≠ ':' ∧ (c.toNat != 0) = true := by
  simp only [isdigit, Bool.and_eq_true, decide_eq_true_eq] at h
  constructor
  · rintro rfl
    revert h
    decide
  · simp only [bne_iff_ne, ne_eq]
    omega

/-- A token without `:` in front of a `:` is read whole by `std::getline`. -/
theorem getlines_go_token (token : List Char) (h : ∀ c ∈ token, c ≠ ':') :
    ∀ cur rest : List Char,
      getlines_go ':' (token ++ ':' :: rest) cur
        = (cur.reverse ++ token) :: getlines_go ':' rest [] := by
  induction token with
  | nil => intro cur rest; simp [getlines_go]
  | cons c cs ih =>
    intro cur rest
    have hc : c ≠ ':' := h c (by simp)
    simp only [List.cons_append, getlines_go, if_neg hc, List.append_eq]
    rw [ih (fun x hx => h x (by simp [hx]))]
    simp

/-- A non-empty token without `:` at the end of the stream is read whole. -/
theorem getlines_go_last_token (token : List Char) (h : ∀ c ∈ token, c ≠ ':') :
    ∀ cur : List Char, (token ≠ [] ∨ cur ≠ []) →
      getlines_go ':' token cur = [cur.reverse ++ token] := by
  induction token with
  | nil =>
    intro cur hne
    have hcur : cur ≠ [] := by
      rcases hne with h1 | h1
      · exact absurd rfl h1
      · exact h1
    obtain ⟨x, xs, rfl⟩ := List.exists_cons_of_ne_nil hcur
    simp [getlines_go]
  | cons c cs ih =>
    intro cur _
    have hc : c ≠ ':' := h c (by simp)
    simp only [getlines_go, if_neg hc]
    rw [ih (fun x hx => h x (by simp [hx])) (c :: cur) (Or.inr (List.cons_ne_nil _ _))]
    simp

/-- The decimal text of an octet is read back by the `std::stoi(current.c_str())` of the
address decoder. -/
theorem stoi_c_str_decimal (b : Nat) (hb : b < 256) :
    stoi (c_str (decimal b)) = .ok (b : Int) := by
  obtain ⟨_, hdig, _⟩ := decimal_spec b
  have hc : c_str (decimal b) = decimal b := by
    unfold c_str
    rw [List.takeWhile_eq_self_iff]
    intro c hcmem
    exact (isdigit_plain c (hdig c hcmem)).2
  have hstoi := stoi_ostream_int_append (b : Int) []
    (by unfold INT_MIN INT_MAX; omega) (by simp)
  have hnat : ostream_int (b : Int) = decimal b := by
    unfold ostream_int
    rw [if_neg (by omega)]
    simp
  rw [hnat, List.append_nil] at hstoi
  rw [hc, hstoi]

/-- C15: for six octets in `0..255` the decoder applied to their decimal texts joined by
`:` returns the address with these octets in order, whatever the array held before. -/
theorem decimal_bssid_decodes (uninit : Nat → Nat) (b0 b1 b2 b3 b4 b5 : Nat)
    (h0 : b0 < 256) (h1 : b1 < 256) (h2 : b2 < 256) (h3 : b3 < 256) (h4 : b4 < 256)
    (h5 : b5 < 256) :
    construct_from_string_bssid uninit
        (decimal b0 ++ ':' :: (decimal b1 ++ ':' :: (decimal b2 ++ ':' :: (decimal b3
          ++ ':' :: (decimal b4 ++ ':' :: decimal b5)))))
      = .ok ⟨[b0, b1, b2, b3, b4, b5]⟩ := by
  have hcolon : ∀ b : Nat, ∀ c ∈ decimal b, c ≠ ':' := fun b c hc =>
    (isdigit_plain c ((decimal_spec b).2.1 c hc)).1
  have hlines : getlines ':'
      (decimal b0 ++ ':' :: (decimal b1 ++ ':' :: (decimal b2 ++ ':' :: (decimal b3
        ++ ':' :: (decimal b4 ++ ':' :: decimal b5)))))
      = [decimal b0, decimal b1, decimal b2, decimal b3, decimal b4, decimal b5] := by
    unfold getlines
    rw [getlines_go_token _ (hcolon b0), getlines_go_token _ (hcolon b1),
      getlines_go_token _ (hcolon b2), getlines_go_token _ (hcolon b3),
      getlines_go_token _ (hcolon b4),
      getlines_go_last_token _ (hcolon b5) [] (Or.inl (decimal_spec b5).1)]
    simp
  have hm : ∀ b : Nat, b < 256 → ((b : Int) % 256).toNat = b := by
    intro b hb
    omega
  simp [construct_from_string_bssid, hlines, bssid_loop, stoi_c_str_decimal, h0, h1, h2,
    h3, h4, h5, hm, BSSID_LEN, Outcome.bind, List.range, List.range.loop]

/-- Witness of C15 at the octets `0,11,255,33,44,55`. -/
theorem decimal_bssid_decodes_witness :
    construct_from_string_bssid (fun _ => 7)
        (decimal 0 ++ ':' :: (decimal 11 ++ ':' :: (decimal 255 ++ ':' :: (decimal 33
          ++ ':' :: (decimal 44 ++ ':' :: decimal 55)))))
      = .ok ⟨[0, 11, 255, 33, 44, 55]⟩ :=
  decimal_bssid_decodes (fun _ => 7) 0 11 255 33 44 55 (by decide) (by decide) (by decide)
    (by decide) (by decide) (by decide)

/-! ## Order of the records -/

/-- The record of a row of three fields that decode, in any evaluation order. -/
theorem parameters_packed_row (order : EvalOrder) (uninit : Nat → Nat)
    (line : List Char) (record : wpa_network) (h : row_decodes line record) :
    parameters_packed order uninit (words line) = .ok record := by
  obtain ⟨id_text, address_text, hwords, hid, haddr⟩ := h
  obtain ⟨id, ⟨name⟩, addr⟩ := record
  simp only at hwords hid haddr
  rw [hwords]
  cases order <;>
    simp [parameters_packed, packed_id, packed_ssid, packed_bssid, vector_at, Outcome.bind,
      hid, haddr uninit, construct_from_string_ssid]

/-- The loop appends the record of each line, in the order of the lines. -/
theorem network_loop_rows (order : EvalOrder) (uninit : Nat → Nat → Nat)
    (lines : List (List Char)) (records : List wpa_network)
    (h : List.Forall₂ row_decodes lines records) :
    ∀ (n : Nat) (results : List wpa_network),
      network_loop order uninit lines n results = .ok (results ++ records) := by
  induction h with
  | nil => intro n results; simp [network_loop]
  | cons hrow _ ih =>
    intro n results
    unfold network_loop
    rw [parameters_packed_row order (uninit n) _ _ hrow]
    simp only
    rw [ih]
    simp

/-- C16: when the lines of the text and the records correspond one to one in order, each
line having exactly three fields of which the first decodes to the id of its record, the
second is the name verbatim and the third decodes to the address, parsing returns exactly
these records, as many as there are lines. -/
theorem network_list_preserves_order (order : EvalOrder) (uninit : Nat → Nat → Nat)
    (input : List Char) (records : List wpa_network)
    (h : List.Forall₂ row_decodes (getlines '\n' input) records) :
    construct_from_string_networks order uninit input = .ok records ∧
      records.length = (getlines '\n' input).length := by
  refine ⟨?_, h.length_eq.symm⟩
  have := network_loop_rows order uninit _ _ h 0 []
  simpa [construct_from_string_networks] using this

/-- Witness of C16: the two rows of the example reply with decimal octets. -/
theorem network_list_preserves_order_witness :
    construct_from_string_networks .o201 (fun _ _ => 0) decimal_example_reply
      = .ok [⟨⟨0⟩, ⟨"MyNetwork".toList⟩, ⟨[0, 11, 22, 33, 44, 55]⟩⟩,
             ⟨⟨1⟩, ⟨"Guest".toList⟩, ⟨[66, 77, 88, 99, 170, 187]⟩⟩] ∧
      [(⟨⟨0⟩, ⟨"MyNetwork".toList⟩, ⟨[0, 11, 22, 33, 44, 55]⟩⟩ : wpa_network),
        ⟨⟨1⟩, ⟨"Guest".toList⟩, ⟨[66, 77, 88, 99, 170, 187]⟩⟩].length
        = (getlines '\n' decimal_example_reply).length :=
  network_list_preserves_order .o201 (fun _ _ => 0) decimal_example_reply _
    (List.Forall₂.cons
      ⟨"0".toList, "00:11:22:33:44:55".toList, by decide, by decide, fun _ => rfl⟩
      (List.Forall₂.cons
        ⟨"1".toList, "66:77:88:99:170:187".toList, by decide, by decide, fun _ => rfl⟩
        List.Forall₂.nil))

end network
